import Mathlib

/-!  Verification development for the AI story-generation service (`app.py`).

The Python source is shallowly embedded: JSON values are an inductive type,
`json.loads` is an executable parser, the regular-expression based recovery
steps are executable string functions, and every `try/except` block becomes an
`Option`: `none` models an exception reaching that handler.  Calls to the
generative text model are abstracted as an oracle record, since the model is an
external collaborator (prompt in, raw text out, or an exception).
-/

/-- JSON values as produced by `json.loads`.  Objects keep insertion order, as
Python dicts do; numeric literals are modeled as integers (every numeric field
of the story pipeline — chapter numbers, dimensions — is an integer, and a
fractional literal simply makes the embedded parser fail like any other
malformed input). -/
inductive Json where
  | null : Json
  | bool : Bool → Json
  | num : Int → Json
  | str : String → Json
  | arr : List Json → Json
  | obj : List (String × Json) → Json

/-- First value stored under a key of an object field list. -/
def lookupField : List (String × Json) → String → Option Json
  | [], _ => none
  | (k', v) :: fs, k => if k' = k then some v else lookupField fs k

/-- Subscript lookup `j[k]`: `none` both when the key is absent (Python
`KeyError`) and when the value is not a dict (Python `TypeError`). -/
def getField : Json → String → Option Json
  | Json.obj fs, k => lookupField fs k
  | _, _ => none

/-- Python dict assignment `d[k] = v`: an existing key keeps its position and
gets the new value, a new key is appended. -/
def setPairs : List (String × Json) → String → Json → List (String × Json)
  | [], k, v => [(k, v)]
  | (k', v') :: fs, k, v => if k' = k then (k, v) :: fs else (k', v') :: setPairs fs k v

/-- Dict assignment lifted to `Json`; on a non-object it is never reached in
the embedded code paths (the code raises earlier on non-dict values). -/
def setField : Json → String → Json → Json
  | Json.obj fs, k, v => Json.obj (setPairs fs k v)
  | j, _, _ => j

/-- The characters `json.loads` treats as whitespace. -/
def jsonWs (c : Char) : Bool := c = ' ' || c = '\t' || c = '\n' || c = '\r'

/-- Drop leading JSON whitespace. -/
def skipWs : List Char → List Char
  | [] => []
  | c :: cs => if jsonWs c then skipWs cs else c :: cs

/-- The opening brace character. -/
def lbrace : Char := Char.ofNat 123

/-- The closing brace character. -/
def rbrace : Char := Char.ofNat 125

/-- Hex digit value of a character, as accepted in a `\uXXXX` escape. -/
def hexVal (c : Char) : Option Nat :=
  if '0' ≤ c ∧ c ≤ '9' then some (c.toNat - 48)
  else if 'a' ≤ c ∧ c ≤ 'f' then some (c.toNat - 87)
  else if 'A' ≤ c ∧ c ≤ 'F' then some (c.toNat - 55)
  else none

/-- Body of a JSON string literal after the opening quote: returns the decoded
characters and the input after the closing quote.  Unescaped control
characters are rejected, like `json.loads` in strict mode. -/
def parseStringBody : List Char → Option (List Char × List Char)
  | [] => none
  | c :: cs =>
    if c = '"' then some ([], cs)
    else if c = '\\' then
      match cs with
      | [] => none
      | e :: cs2 =>
        if e = '"' ∨ e = '\\' ∨ e = '/' then
          (parseStringBody cs2).map (fun p => (e :: p.1, p.2))
        else if e = 'n' then (parseStringBody cs2).map (fun p => ('\n' :: p.1, p.2))
        else if e = 't' then (parseStringBody cs2).map (fun p => ('\t' :: p.1, p.2))
        else if e = 'r' then (parseStringBody cs2).map (fun p => ('\r' :: p.1, p.2))
        else if e = 'b' then (parseStringBody cs2).map (fun p => (Char.ofNat 8 :: p.1, p.2))
        else if e = 'f' then (parseStringBody cs2).map (fun p => (Char.ofNat 12 :: p.1, p.2))
        else if e = 'u' then
          match cs2 with
          | h1 :: h2 :: h3 :: h4 :: cs3 =>
            match hexVal h1, hexVal h2, hexVal h3, hexVal h4 with
            | some a, some b, some c1, some d =>
              (parseStringBody cs3).map
                (fun p => (Char.ofNat (4096 * a + 256 * b + 16 * c1 + d) :: p.1, p.2))
            | _, _, _, _ => none
          | _ => none
        else none
    else if c.toNat < 32 then none
    else (parseStringBody cs).map (fun p => (c :: p.1, p.2))

/-- Consume a run of decimal digits, accumulating their value. -/
def parseDigitsAux : Nat → List Char → Nat × List Char
  | acc, [] => (acc, [])
  | acc, c :: cs =>
    if c.isDigit then parseDigitsAux (acc * 10 + (c.toNat - 48)) cs else (acc, c :: cs)

/-- Parse an integer JSON number (optional minus sign, no leading zeros); a
fraction or exponent makes the parse fail, see `Json`. -/
def parseNumber (cs : List Char) : Option (Int × List Char) :=
  let core : List Char → Option (Nat × List Char) := fun ds =>
    match ds with
    | [] => none
    | c :: cs2 =>
      if ¬ c.isDigit then none
      else if c = '0' then
        match cs2 with
        | d :: _ => if d.isDigit then none else some (0, cs2)
        | [] => some (0, cs2)
      else some (parseDigitsAux (c.toNat - 48) cs2)
  match cs with
  | [] => none
  | c :: cs2 =>
    if c = '-' then
      (core cs2).bind fun p =>
        match p.2 with
        | d :: _ => if d = '.' ∨ d = 'e' ∨ d = 'E' then none else some (-(p.1 : Int), p.2)
        | [] => some (-(p.1 : Int), p.2)
    else
      (core cs).bind fun p =>
        match p.2 with
        | d :: _ => if d = '.' ∨ d = 'e' ∨ d = 'E' then none else some ((p.1 : Int), p.2)
        | [] => some ((p.1 : Int), p.2)

/-- Parser modes: a value, the interior of an array (fresh or mid-loop), or
the interior of an object (fresh or mid-loop). -/
inductive PMode where
  | val : PMode
  | elems : PMode
  | elemsLoop : PMode
  | fields : PMode
  | fieldsLoop : PMode

/-- Carrier for the result of one parser step, by mode. -/
inductive PRes where
  | v : Json → PRes
  | l : List Json → PRes
  | fl : List (String × Json) → PRes

/-- The recursive core of the JSON parser, structurally recursive on fuel so
that it reduces inside the kernel; `json_loads` supplies enough fuel for any
input because every recursive call consumes input. -/
def parseGo : Nat → PMode → List Char → Option (PRes × List Char)
  | 0, _, _ => none
  | Nat.succ fuel, PMode.val, cs =>
    (match skipWs cs with
    | [] => none
    | c :: rest =>
      if c = lbrace then parseGo fuel PMode.fields rest
      else if c = '[' then parseGo fuel PMode.elems rest
      else if c = '"' then
        (parseStringBody rest).map (fun p => (PRes.v (Json.str (String.mk p.1)), p.2))
      else if c = 't' then
        match rest with
        | 'r' :: 'u' :: 'e' :: rest2 => some (PRes.v (Json.bool true), rest2)
        | _ => none
      else if c = 'f' then
        match rest with
        | 'a' :: 'l' :: 's' :: 'e' :: rest2 => some (PRes.v (Json.bool false), rest2)
        | _ => none
      else if c = 'n' then
        match rest with
        | 'u' :: 'l' :: 'l' :: rest2 => some (PRes.v Json.null, rest2)
        | _ => none
      else
        (parseNumber (c :: rest)).map (fun p => (PRes.v (Json.num p.1), p.2)))
  | Nat.succ fuel, PMode.elems, cs =>
    (match skipWs cs with
    | [] => none
    | c :: rest =>
      if c = ']' then some (PRes.v (Json.arr []), rest)
      else
        (parseGo fuel PMode.elemsLoop cs).bind fun p =>
          match p.1 with
          | PRes.l js => some (PRes.v (Json.arr js), p.2)
          | _ => none)
  | Nat.succ fuel, PMode.elemsLoop, cs =>
    (parseGo fuel PMode.val cs).bind fun p =>
      match p.1 with
      | PRes.v j =>
        (match skipWs p.2 with
        | [] => none
        | c :: rest =>
          if c = ',' then
            (parseGo fuel PMode.elemsLoop rest).bind fun q =>
              match q.1 with
              | PRes.l js => some (PRes.l (j :: js), q.2)
              | _ => none
          else if c = ']' then some (PRes.l [j], rest)
          else none)
      | _ => none
  | Nat.succ fuel, PMode.fields, cs =>
    (match skipWs cs with
    | [] => none
    | c :: _ =>
      if c = rbrace then
        match skipWs cs with
        | _ :: rest => some (PRes.v (Json.obj []), rest)
        | [] => none
      else
        (parseGo fuel PMode.fieldsLoop cs).bind fun p =>
          match p.1 with
          | PRes.fl fs =>
            some (PRes.v (Json.obj (fs.foldl (fun acc kv => setPairs acc kv.1 kv.2) [])), p.2)
          | _ => none)
  | Nat.succ fuel, PMode.fieldsLoop, cs =>
    (match skipWs cs with
    | [] => none
    | c :: rest =>
      if c = '"' then
        (parseStringBody rest).bind fun kp =>
          match skipWs kp.2 with
          | [] => none
          | c2 :: rest2 =>
            if c2 = ':' then
              (parseGo fuel PMode.val rest2).bind fun vp =>
                match vp.1 with
                | PRes.v v =>
                  (match skipWs vp.2 with
                  | [] => none
                  | c3 :: rest3 =>
                    if c3 = ',' then
                      (parseGo fuel PMode.fieldsLoop rest3).bind fun q =>
                        match q.1 with
                        | PRes.fl fs => some (PRes.fl ((String.mk kp.1, v) :: fs), q.2)
                        | _ => none
                    else if c3 = rbrace then some (PRes.fl [(String.mk kp.1, v)], rest3)
                    else none)
                | _ => none
            else none
      else none)

/-- Parse one JSON value, returning it with the unconsumed input. -/
def parseValue (fuel : Nat) (cs : List Char) : Option (Json × List Char) :=
  (parseGo fuel PMode.val cs).bind fun p =>
    match p.1 with
    | PRes.v j => some (j, p.2)
    | _ => none

/-- Embedding of `json.loads`: parse one value and require that only
whitespace remains. -/
def json_loads (s : String) : Option Json :=
  match parseValue (2 * s.length + 8) s.data with
  | some (j, rest) => if skipWs rest = [] then some j else none
  | none => none

/-- The characters Python's `str.strip()` and the regex class `\s` treat as
whitespace (ASCII portion). -/
def pyWs (c : Char) : Bool :=
  c = ' ' || c = '\t' || c = '\n' || c = '\r' || c = Char.ofNat 11 || c = Char.ofNat 12

/-- Python `s.strip()`. -/
def pyStrip (s : String) : String :=
  String.mk (((s.data.dropWhile pyWs).reverse.dropWhile pyWs).reverse)

/-- Index of the first occurrence of `pat` in `cs`, if any. -/
def findSubAux (pat : List Char) : List Char → Option Nat
  | [] => if pat = [] then some 0 else none
  | c :: cs => if List.isPrefixOf pat (c :: cs) then some 0 else (findSubAux pat cs).map (· + 1)

/-- Python `pat in s` substring test. -/
def containsSub (s pat : String) : Bool := (findSubAux pat.data s.data).isSome

/-- Suffix of `cs` after the first occurrence of `pat`. -/
def afterFirst (pat cs : List Char) : Option (List Char) :=
  (findSubAux pat cs).map fun i => cs.drop (i + pat.length)

/-- The match group of `re.search(tag + r'\s*(.*?)\s*```', s, re.DOTALL)` for a
literal `tag` that ends in three backticks' worth of fence opener: the text
between the first occurrence of `tag` and the next occurrence of three
backticks, with surrounding whitespace stripped.  (The lazy group plus greedy
`\s*` on both sides amounts exactly to stripping, and since neither fence
delimiter can overlap itself, first-occurrence search matches the regex
engine's leftmost-match rule.) -/
def fenceInner (tag : String) (s : String) : Option String :=
  (afterFirst tag.data s.data).bind fun rest =>
    (findSubAux "```".data rest).map fun k => pyStrip (String.mk (rest.take k))

/-- The match of `re.search(r'\{.*\}', s, re.DOTALL)`: from the first opening
brace to the last closing brace, provided the latter comes after the former. -/
def braceSpan (s : String) : Option String :=
  (findSubAux [lbrace] s.data).bind fun i =>
    (findSubAux [rbrace] s.data.reverse).bind fun k =>
      let j := s.data.length - 1 - k
      if i < j then some (String.mk ((s.data.drop i).take (j - i + 1))) else none

/-- Decimal digit character. -/
def digitChar (n : Nat) : Char := Char.ofNat (48 + n)

/-- Decimal rendering of a natural number (fuelled, kernel-reducible). -/
def natToStrAux : Nat → Nat → List Char
  | 0, _ => []
  | Nat.succ _, 0 => []
  | Nat.succ fuel, n => natToStrAux fuel (n / 10) ++ [digitChar (n % 10)]

/-- Python `str(n)` for a non-negative integer. -/
def natToStr (n : Nat) : String :=
  if n = 0 then "0" else String.mk (natToStrAux (n + 1) n)

/-- Python `str(n)` for an integer. -/
def intToStr (n : Int) : String :=
  if n < 0 then "-" ++ natToStr n.natAbs else natToStr n.toNat

/-- ASCII letter test (the only letters the word regex `[A-Za-z]` admits). -/
def isAsciiAlpha (c : Char) : Bool :=
  (65 ≤ c.toNat && c.toNat ≤ 90) || (97 ≤ c.toNat && c.toNat ≤ 122)

/-- Python `str.title()` (ASCII): the first letter of every letter run is
uppercased, subsequent letters are lowercased. -/
def pyTitleAux : Bool → List Char → List Char
  | _, [] => []
  | prevAlpha, c :: cs =>
    if isAsciiAlpha c then
      (if prevAlpha then c.toLower else c.toUpper) :: pyTitleAux true cs
    else c :: pyTitleAux false cs

/-- Python `s.title()`. -/
def pyTitle (s : String) : String := String.mk (pyTitleAux false s.data)

/-- UTF-8 encoding of one scalar value, as a list of byte values. -/
def utf8Bytes (c : Char) : List Nat :=
  if c.toNat < 128 then [c.toNat]
  else if c.toNat < 2048 then [192 + c.toNat / 64, 128 + c.toNat % 64]
  else if c.toNat < 65536 then
    [224 + c.toNat / 4096, 128 + c.toNat / 64 % 64, 128 + c.toNat % 64]
  else
    [240 + c.toNat / 262144, 128 + c.toNat / 4096 % 64, 128 + c.toNat / 64 % 64,
      128 + c.toNat % 64]

/-- The bytes `urllib.parse.quote` leaves unescaped with its default
`safe='/'`: ASCII letters, digits, `_.-~` and `/`. -/
def isSafeByte (b : Nat) : Bool :=
  (65 ≤ b && b ≤ 90) || (97 ≤ b && b ≤ 122) || (48 ≤ b && b ≤ 57) ||
  b = 45 || b = 46 || b = 95 || b = 126 || b = 47

/-- Uppercase hex digit, as `quote` emits. -/
def hexDigitChar (n : Nat) : Char :=
  Char.ofNat (if n < 10 then 48 + n else 55 + n)

/-- Percent-encode one byte. -/
def pctByte (b : Nat) : List Char :=
  if isSafeByte b then [Char.ofNat b] else ['%', hexDigitChar (b / 16), hexDigitChar (b % 16)]

/-- Embedding of `urllib.parse.quote(s)` (default `safe='/'`): UTF-8 encode,
then percent-encode every unsafe byte. -/
def quote (s : String) : String :=
  String.mk ((s.data.flatMap utf8Bytes).flatMap pctByte)

/-- Embedding of `generate_image` for a string prompt.  The `try` body cannot
raise on a string input, so the function is the pure URL construction; its
output depends on nothing but the three arguments. -/
def generate_image (prompt : String) (width height : Nat) : String :=
  "https://image.pollinations.ai/prompt/" ++ quote prompt ++ "?width=" ++ natToStr width ++
    "&height=" ++ natToStr height ++ "&nologo=true"

/-- The fixed fallback URL `generate_image` returns when its body raises
(which happens exactly when `quote` is handed a non-string prompt), and which
`generate_all_images_concurrent` also uses for the whole-batch fallback. -/
def scenicFallbackUrl : String :=
  "https://image.pollinations.ai/prompt/scenic%20view?width=800&height=600&nologo=true"

/-- The distinct fallback URL used for the cover in the whole-batch fallback. -/
def coverFallbackUrl : String :=
  "https://image.pollinations.ai/prompt/book%20cover?width=400&height=550&nologo=true"

/-- Calling `generate_image` with a prompt taken from a parsed JSON field: a
string prompt builds the URL, any other value makes `quote` raise `TypeError`
inside the `try`, which returns the fixed fallback URL. -/
def generate_image_json : Json → String
  | Json.str p => generate_image p 800 600
  | _ => scenicFallbackUrl

/-- Value of an uppercase hex digit character (left inverse of
`hexDigitChar` on nibbles). -/
def hexNibble (c : Char) : Nat :=
  if c.toNat ≤ 57 then c.toNat - 48 else c.toNat - 55

/-- Decoder for percent-encoded byte streams, used only to prove `quote`
injective. -/
def pctDecode : List Char → Option (List Nat)
  | [] => some []
  | c :: rest =>
    if c = '%' then
      match rest with
      | d1 :: d2 :: rest2 => (pctDecode rest2).map (fun bs => (16 * hexNibble d1 + hexNibble d2) :: bs)
      | _ => none
    else (pctDecode rest).map (fun bs => c.toNat :: bs)

/-- Python `s.lower()` on ASCII text (character-wise basic-latin lowering). -/
def pyLower (s : String) : String := String.mk (s.data.map Char.toLower)

/-- Word characters for the regex word boundary `\b`: letters, digits and the
underscore.  The embedding models the ASCII portion of Python's Unicode word
class — the token class `[A-Za-z]` itself is ASCII, so only the
classification of non-ASCII neighbor characters is approximated. -/
def isWordChar (c : Char) : Bool := isAsciiAlpha c || c.isDigit || c = '_'

/-- Whether a maximal letter run is a match of `\b[A-Za-z]{5,}\b`: at least
five letters, and the characters adjacent to the run (when they exist) are not
word characters. -/
def tokenOk (prev : Option Char) (run : List Char) (next : Option Char) : Bool :=
  decide (5 ≤ run.length) &&
  (match prev with | some p => !isWordChar p | none => true) &&
  (match next with | some a => !isWordChar a | none => true)

/-- Scanner for `re.findall(r'\b[A-Za-z]{5,}\b', text)`: walks the text
accumulating the current letter run (reversed) while remembering the character
preceding the run. -/
def tokensGo : Option Char → List Char → List Char → List String
  | prev, run, [] => if tokenOk prev run none then [String.mk run.reverse] else []
  | prev, run, c :: cs =>
    if isAsciiAlpha c then tokensGo prev (c :: run) cs
    else
      (if tokenOk prev run (some c) then [String.mk run.reverse] else []) ++
        tokensGo (some c) [] cs

/-- Embedding of `re.findall(r'\b[A-Za-z]{5,}\b', text)`. -/
def findallWords (text : String) : List String := tokensGo none [] text.data

/-- The explicit stoplist of `extract_terminology`. -/
def common_words : List String :=
  ["there", "their", "would", "could", "should", "about", "which", "these",
   "those", "were", "have", "that", "what", "when", "where", "while", "from",
   "been", "being", "other", "another", "every", "everything", "something",
   "anything", "nothing", "through", "although", "though", "without", "within",
   "around", "before", "after", "under", "over", "because"]

/-- Python `w.isupper()` on ASCII text: at least one letter, and no lowercase
letter. -/
def pyIsUpper (w : String) : Bool :=
  w.data.any isAsciiAlpha && w.data.all (fun c => !isAsciiAlpha c || c.isUpper)

/-- The word filter of `extract_terminology`: not in the stoplist, not an
acronym, at least six letters, no digits. -/
def filtered_words (text : String) : List String :=
  (findallWords text).filter fun w =>
    !(common_words.contains (pyLower w)) && !pyIsUpper w &&
      decide (6 ≤ w.length) && !(w.data.any Char.isDigit)

/-- Case-insensitive deduplication preserving the first-seen casing, with the
set of already-seen lowercasings as accumulator. -/
def dedupGo : List String → List String → List String
  | _, [] => []
  | seen, w :: ws =>
    if pyLower w ∈ seen then dedupGo seen ws
    else w :: dedupGo (pyLower w :: seen) ws

/-- The deduplicated candidate list of `extract_terminology`. -/
def unique_words (text : String) : List String := dedupGo [] (filtered_words text)

/-- Python string comparison `s < t`: lexicographic on code points. -/
def strLtB : List Char → List Char → Bool
  | [], [] => false
  | [], _ :: _ => true
  | _ :: _, [] => false
  | a :: as, b :: bs => if a < b then true else if b < a then false else strLtB as bs

/-- Python's sort key `lambda x: (len(x), x.lower())`. -/
def pyKey (w : String) : Nat × String := (w.length, pyLower w)

/-- Lexicographic order on sort keys, as Python compares the tuples. -/
def keyLtB (a b : Nat × String) : Bool :=
  decide (a.1 < b.1) || (a.1 == b.1 && strLtB a.2.data b.2.data)

/-- The placement relation realizing Python's stable
`sorted(key=pyKey, reverse=True)`: `a` may stand before `b` exactly when its
key is not smaller (so equal keys keep their original order). -/
def rankGE (a b : String) : Prop := keyLtB (pyKey a) (pyKey b) = false

instance : DecidableRel rankGE := fun _ _ => instDecidableEqBool _ _

/-- Embedding of `sorted(l, key=lambda x: (len(x), x.lower()), reverse=True)`. -/
def pySortedRev (l : List String) : List String := List.insertionSort rankGE l

/-- The ranked, truncated candidate list of `extract_terminology`. -/
def selected_words (text : String) : List String := (pySortedRev (unique_words text)).take 5

/-- Oracle abstracting the generative text model inside the terminology
enricher: the raw text answered to the batched definitions request (`none`
models the call raising), the raw text answered to a single-word retry, and
the rendering of the exception message interpolated into the error
dictionary. -/
structure DefOracle where
  batch : List String → Option String
  retry : String → Option String
  errMsg : String

/-- The per-word error dictionary built when anything inside the `try` of
`get_word_definitions` raises. -/
def errorDefs (o : DefOracle) (words : List String) : List (String × String) :=
  words.map fun w => (w, "Definition not available due to error: " ++ o.errMsg)

/-- Python `next((k for k in definitions.keys() if k.lower() == word_lower), None)`. -/
def firstKeyCI (defs : List (String × Json)) (w : String) : Option String :=
  match defs with
  | [] => none
  | (k, _) :: rest => if pyLower k = pyLower w then some k else firstKeyCI rest w

/-- The single-word retry: the stripped retry answer when the call succeeds
and strips non-empty, otherwise the `"No definition available"` sentinel. -/
def retryDefinition (o : DefOracle) (w : String) : String :=
  match o.retry w with
  | none => "No definition available"
  | some rt => if pyStrip rt = "" then "No definition available" else pyStrip rt

/-- The per-word resolution loop of `get_word_definitions`; `none` models an
exception inside the loop (a non-string definition value hit by `.strip()`),
which discards all per-word results. -/
def wordsLoop (o : DefOracle) (defs : List (String × Json)) :
    List String → Option (List (String × String))
  | [] => some []
  | w :: ws =>
    match firstKeyCI defs w with
    | some k =>
      if k = "" then (wordsLoop o defs ws).map (fun r => (w, retryDefinition o w) :: r)
      else
        match lookupField defs k with
        | some (Json.str v) =>
          if pyStrip v = "" then (wordsLoop o defs ws).map (fun r => (w, retryDefinition o w) :: r)
          else (wordsLoop o defs ws).map (fun r => (w, v) :: r)
        | _ => none
    | none => (wordsLoop o defs ws).map (fun r => (w, retryDefinition o w) :: r)

/-- Embedding of `get_word_definitions`: batched model call, markdown cleanup,
brace-span extraction, JSON parse, then the per-word loop; every raising path
lands in the error dictionary. -/
def get_word_definitions (o : DefOracle) (words : List String) : List (String × String) :=
  match o.batch words with
  | none => errorDefs o words
  | some t0 =>
    let rt := pyStrip t0
    let step1 : Option String :=
      if containsSub rt "```json" then fenceInner "```json" rt
      else if containsSub rt "```" then fenceInner "```" rt
      else some rt
    match step1 with
    | none => errorDefs o words
    | some t1 =>
      match braceSpan t1 with
      | none => errorDefs o words
      | some t2 =>
        match json_loads t2 with
        | some (Json.obj defs) =>
          match wordsLoop o defs words with
          | some res => res
          | none => errorDefs o words
        | _ => errorDefs o words

/-- Embedding of `extract_terminology`: candidate selection, then definition
resolution, then the filter dropping empty values and the retry sentinel. -/
def extract_terminology (o : DefOracle) (text : String) : List (String × String) :=
  if selected_words text = [] then []
  else
    (get_word_definitions o (selected_words text)).filter fun kv =>
      !(kv.2 == "") && !(kv.2 == "No definition available")

/-- A Python `dict[str, str]` as a JSON value. -/
def defsToJson (l : List (String × String)) : Json :=
  Json.obj (l.map fun kv => (kv.1, Json.str kv.2))

/-- Outcome of the JSON-recovery ladder that `generate_story`,
`regenerate_chapter` and `continue_story` all inline: a successful parse, the
exhausted ladder (the code then builds its inline default record and keeps
going), or an exception raised by parsing the contents of a found fence or
brace span (the code then jumps to its `except` handler). -/
inductive ParseOutcome where
  | parsed : Json → ParseOutcome
  | defaulted : ParseOutcome
  | raised : ParseOutcome

/-- The shared recovery ladder: direct `json.loads`, else a ```json fenced
block (whose parse failure raises), else the first-to-last brace span (whose
parse failure raises), else the ladder is exhausted.  There is no untagged
fence rung here, unlike `get_word_definitions`. -/
def parseLadder (raw : String) : ParseOutcome :=
  match json_loads raw with
  | some j => ParseOutcome.parsed j
  | none =>
    match fenceInner "```json" raw with
    | some inner =>
      match json_loads inner with
      | some j => ParseOutcome.parsed j
      | none => ParseOutcome.raised
    | none =>
      match braceSpan raw with
      | some span =>
        match json_loads span with
        | some j => ParseOutcome.parsed j
        | none => ParseOutcome.raised
      | none => ParseOutcome.defaulted

/-- The single placeholder chapter of the terminal default story. -/
def defaultChapterStory : Json := Json.obj [
  ("chapter_number", Json.num 1),
  ("chapter_title", Json.str "Chapter 1"),
  ("content", Json.str "Story generation failed. Please try again."),
  ("image_prompt", Json.str "A blank page with some text"),
  ("terminology", Json.obj [])]

/-- The terminal default story record of `generate_story` (both the inline
ladder default and the `except` handler build this same dict). -/
def defaultStory (genre : String) : Json := Json.obj [
  ("title", Json.str (pyTitle genre ++ " Story")),
  ("author", Json.str "AI Author"),
  ("moral", Json.str "Could not generate a moral for the story"),
  ("chapters", Json.arr [defaultChapterStory])]

/-- The per-chapter enrichment loop `chapter['terminology'] =
extract_terminology(chapter['content'])` over a list-shaped chapter
collection; `none` models the loop raising (non-dict chapter, missing or
non-string content). -/
def enrichChapters (o : DefOracle) : List Json → Option (List Json)
  | [] => some []
  | c :: cs =>
    match getField c "content" with
    | some (Json.str s) =>
      (enrichChapters o cs).map fun cs2 =>
        setField c "terminology" (defsToJson (extract_terminology o s)) :: cs2
    | _ => none

/-- The enrichment pass over `story_data['chapters']`: a list is enriched
element-wise, iterating an empty string or empty dict does nothing, and every
other shape raises. -/
def addTerminology (o : DefOracle) (j : Json) : Option Json :=
  match getField j "chapters" with
  | some (Json.arr chs) =>
    (enrichChapters o chs).map fun chs2 => setField j "chapters" (Json.arr chs2)
  | some (Json.str s) => if s = "" then some j else none
  | some (Json.obj []) => some j
  | _ => none

/-- Embedding of `generate_story`: the model response is `none` when the call
raises; otherwise the recovery ladder runs, the exhausted ladder substitutes
the inline default record which still flows through enrichment, and every
raising path resolves to the terminal default record. -/
def generate_story (o : DefOracle) (genre : String) (resp : Option String) : Json :=
  match resp with
  | none => defaultStory genre
  | some raw =>
    match parseLadder raw with
    | ParseOutcome.raised => defaultStory genre
    | ParseOutcome.parsed j =>
      match addTerminology o j with
      | some j2 => j2
      | none => defaultStory genre
    | ParseOutcome.defaulted =>
      match addTerminology o (defaultStory genre) with
      | some j2 => j2
      | none => defaultStory genre

/-- The placeholder chapter of `regenerate_chapter` (identical in its inline
ladder default and its `except` handler), numbered with the requested chapter
number. -/
def fallbackChapter (n : Int) : Json := Json.obj [
  ("chapter_number", Json.num n),
  ("chapter_title", Json.str "Regenerated Chapter"),
  ("content", Json.str "Failed to regenerate chapter. Please try again."),
  ("image_prompt", Json.str "A blank page with some text"),
  ("terminology", Json.obj [])]

/-- What `regenerate_chapter` hands back: the out-of-range error value
`("Invalid chapter number", 400)` or a chapter record. -/
inductive RegenAns where
  | invalid : RegenAns
  | chap : Json → RegenAns

/-- Whether building the regeneration prompt survives its context lookup:
chapter 1 needs no context, otherwise `chapters[i-1]['content']` must exist. -/
def hasPrevContext (chs : List Json) (i : Nat) : Bool :=
  if i = 0 then true
  else
    match chs[i - 1]? with
    | some c => (getField c "content").isSome
    | none => false

/-- In-place replacement of chapter `i` in the story's chapter list. -/
def setChapterAt (story : Json) (chs : List Json) (i : Nat) (c : Json) : Json :=
  setField story "chapters" (Json.arr (chs.set i c))

/-- What `regenerate_chapter` does with the chapter record `j` the recovery
ladder produced (a parsed chapter, or the inline ladder default): terminology
enrichment (raising on a missing or non-string content, story untouched),
in-place replacement, then the image assignment (whose `image_prompt` lookup
raising after the replacement leaves the story mutated). -/
def regenAfterParse (o : DefOracle) (story : Json) (chs : List Json) (chapter_number : Int)
    (j : Json) : RegenAns × Json :=
  match getField j "content" with
  | some (Json.str s) =>
    let j1 := setField j "terminology" (defsToJson (extract_terminology o s))
    match getField j1 "image_prompt" with
    | some p =>
      let j2 := setField j1 "image" (Json.str (generate_image_json p))
      (RegenAns.chap j2, setChapterAt story chs (chapter_number - 1).toNat j2)
    | none =>
      (RegenAns.chap (fallbackChapter chapter_number),
        setChapterAt story chs (chapter_number - 1).toNat j1)
  | _ => (RegenAns.chap (fallbackChapter chapter_number), story)

/-- The in-range body of `regenerate_chapter` (everything after the range
check): prompt construction, the model call, the recovery ladder (whose inline
default flows on through enrichment, replacement and illustration), and the
`except` handler answering the fallback chapter with the story as mutated so
far. -/
def regenCore (o : DefOracle) (story : Json) (chs : List Json) (chapter_number : Int)
    (resp : Option String) : Option (RegenAns × Json) :=
  if (getField story "title").isNone then none
  else if ¬ hasPrevContext chs (chapter_number - 1).toNat then none
  else
    match resp with
    | none => some (RegenAns.chap (fallbackChapter chapter_number), story)
    | some raw =>
      match parseLadder raw with
      | ParseOutcome.raised => some (RegenAns.chap (fallbackChapter chapter_number), story)
      | ParseOutcome.parsed j => some (regenAfterParse o story chs chapter_number j)
      | ParseOutcome.defaulted =>
        some (regenAfterParse o story chs chapter_number (fallbackChapter chapter_number))

/-- Embedding of `regenerate_chapter`, returning the answer together with the
story as left behind by the call (Python mutates the chapter list in place;
the aliasing of the inserted chapter is reflected by inserting the final
chapter value).  `none` models an exception escaping the function — the
route then answers 500.  A dict-shaped chapter collection passes the range
check against its key count (answering the invalid tuple when out of range);
in range, the context lookup `chapters[i-1]` raises `KeyError` on the
string-keyed dict for every chapter but the first, and a completed chapter-1
call leaves the dict with an integer key — a state outside this `Json`
model — so the in-range dict cases are folded into the escaping outcome. -/
def regenerate_chapter (o : DefOracle) (story : Json) (chapter_number : Int)
    (resp : Option String) : Option (RegenAns × Json) :=
  match getField story "chapters" with
  | some (Json.arr chs) =>
    if chapter_number - 1 < 0 ∨ (chs.length : Int) ≤ chapter_number - 1 then
      some (RegenAns.invalid, story)
    else regenCore o story chs chapter_number resp
  | some (Json.str s) =>
    if chapter_number - 1 < 0 ∨ (s.length : Int) ≤ chapter_number - 1 then
      some (RegenAns.invalid, story)
    else if chapter_number - 1 = 0 then
      if (getField story "title").isNone then none
      else some (RegenAns.chap (fallbackChapter chapter_number), story)
    else none
  | some (Json.obj fs) =>
    if chapter_number - 1 < 0 ∨ (fs.length : Int) ≤ chapter_number - 1 then
      some (RegenAns.invalid, story)
    else none
  | _ => none

/-- Is the value a JSON object (a Python dict)? -/
def isObjJ : Json → Bool
  | Json.obj _ => true
  | _ => false

mutual

/-- Python `repr` of a parsed JSON value (ASCII shape), used only to render a
non-string title into the cover-prompt f-string. -/
def pyReprJson : Json → String
  | Json.null => "None"
  | Json.bool b => if b then "True" else "False"
  | Json.num n => intToStr n
  | Json.str s => "'" ++ s ++ "'"
  | Json.arr xs => "[" ++ pyReprList xs ++ "]"
  | Json.obj fs => "\x7b" ++ pyReprPairs fs ++ "\x7d"

/-- Comma-separated reprs of list elements. -/
def pyReprList : List Json → String
  | [] => ""
  | [x] => pyReprJson x
  | x :: xs => pyReprJson x ++ ", " ++ pyReprList xs

/-- Comma-separated reprs of dict items. -/
def pyReprPairs : List (String × Json) → String
  | [] => ""
  | [(k, v)] => "'" ++ k ++ "': " ++ pyReprJson v
  | (k, v) :: fs => "'" ++ k ++ "': " ++ pyReprJson v ++ ", " ++ pyReprPairs fs

end

/-- Python `str(...)` of a parsed JSON value as an f-string interpolates it. -/
def pyStr (j : Json) : String :=
  match j with
  | Json.str s => s
  | Json.num n => intToStr n
  | Json.bool b => if b then "True" else "False"
  | Json.null => "None"
  | j2 => pyReprJson j2

/-- The cover-image prompt built from the story title. -/
def coverPrompt (title : Json) : String :=
  "A professional book cover with a title on it, '" ++ pyStr title ++ "', fantasy art"

/-- A chapter with its image URL assigned from its own `image_prompt`. -/
def chapterWithImage (c : Json) : Json :=
  setField c "image" (Json.str (generate_image_json ((getField c "image_prompt").getD Json.null)))

/-- A chapter with the generic whole-batch fallback URL assigned. -/
def chapterWithFallback (c : Json) : Json :=
  setField c "image" (Json.str scenicFallbackUrl)

/-- Embedding of `generate_all_images_concurrent`, returning the story with
image fields filled plus the cover URL.  Results are joined positionally, so
the fan-out is modeled as a map over the chapter list; `joinFails` injects an
environmental failure of the submit/join machinery, the only failure source
besides story shape since `generate_image` itself never raises.  `none`
models the `except` handler itself raising (non-dict chapters, or a chapter
collection none of the handler's assignments can traverse). -/
def generate_all_images_concurrent (joinFails : Bool) (story : Json) :
    Option (Json × String) :=
  match getField story "chapters" with
  | some (Json.arr chs) =>
    if chs.all isObjJ then
      if !joinFails && (getField story "title").isSome &&
          chs.all (fun c => (getField c "image_prompt").isSome) then
        some (setField story "chapters" (Json.arr (chs.map chapterWithImage)),
              generate_image (coverPrompt ((getField story "title").getD Json.null)) 400 550)
      else
        some (setField story "chapters" (Json.arr (chs.map chapterWithFallback)),
              coverFallbackUrl)
    else none
  | some (Json.str s) =>
    if s = "" then
      if !joinFails && (getField story "title").isSome then
        some (story, generate_image (coverPrompt ((getField story "title").getD Json.null)) 400 550)
      else some (story, coverFallbackUrl)
    else none
  | some (Json.obj []) =>
    if !joinFails && (getField story "title").isSome then
      some (story, generate_image (coverPrompt ((getField story "title").getD Json.null)) 400 550)
    else some (story, coverFallbackUrl)
  | _ => none

/-- The `storyLength → num_chapters` mapping of the `/generate` route:
`{'short': 3, 'medium': 5, 'long': 7, 'grand': 10}.get(story_length, 3)`,
where a missing body field arrives as `None`.  Every hashable key misses the
dict and takes the default 3 (no enum key equals a number, boolean or None),
but an array- or object-valued storyLength is an unhashable key: `dict.get`
raises `TypeError`, the route's handler answers a 500 error, and no chapter
count is produced — modeled as `none`. -/
def num_chapters (storyLength : Option Json) : Option Nat :=
  match storyLength with
  | some (Json.str s) =>
    if s = "short" then some 3
    else if s = "medium" then some 5
    else if s = "long" then some 7
    else if s = "grand" then some 10
    else some 3
  | some (Json.arr _) => none
  | some (Json.obj _) => none
  | _ => some 3

/-- Structural validity of a Story record as claim C1 states it: title,
author and moral present, and a non-empty chapter sequence (spec-side). -/
def validStory (j : Json) : Bool :=
  (getField j "title").isSome && (getField j "author").isSome &&
    (getField j "moral").isSome &&
    (match getField j "chapters" with
     | some (Json.arr (_ :: _)) => true
     | _ => false)

/-- The four-rung fallback ladder exactly as the specification words it for a
full Story — direct parse, tagged fence, untagged fence, brace span, each
rung's parse failure falling through to the next (spec-side definition, to be
compared against `parseLadder`). -/
def extractLadderSpec (raw : String) : Option Json :=
  match json_loads raw with
  | some j => some j
  | none =>
    match (fenceInner "```json" raw).bind json_loads with
    | some j => some j
    | none =>
      match (fenceInner "```" raw).bind json_loads with
      | some j => some j
      | none => (braceSpan raw).bind json_loads

/-- Strict precedence in the ordering claim C4 words: longer first, equal
lengths broken by ascending lowercased word (spec-side). -/
def specPrecB (a b : Nat × String) : Bool :=
  decide (b.1 < a.1) || (a.1 == b.1 && strLtB a.2.data b.2.data)

/-- Placement relation for the spec-side ranking of claim C4. -/
def rankSpecAsc (a b : String) : Prop := specPrecB (pyKey b) (pyKey a) = false

instance : DecidableRel rankSpecAsc := fun _ _ => instDecidableEqBool _ _

/-- Candidate selection as claim C4 words it (spec-side). -/
def selected_words_spec (text : String) : List String :=
  (List.insertionSort rankSpecAsc (unique_words text)).take 5

/-- A definition value the specification treats as an unresolved placeholder:
the retry sentinel, or the error-dictionary rendering (spec-side, claim C5). -/
def unresolvedPlaceholder (v : String) : Bool :=
  v == "No definition available" || List.isPrefixOf "Definition not available".data v.data

/-- Oracle with a raising batched call and raising retries. -/
def oracleFail : DefOracle := ⟨fun _ => none, fun _ => none, "boom"⟩

/-- A well-formed one-chapter story fixture. -/
def chapterOne : Json := Json.obj [
  ("chapter_number", Json.num 1),
  ("chapter_title", Json.str "Ch"),
  ("content", Json.str "hello"),
  ("image_prompt", Json.str "p0"),
  ("terminology", Json.obj [])]

/-- A well-formed story holding `chapterOne`. -/
def storyOne : Json := Json.obj [
  ("title", Json.str "T"),
  ("author", Json.str "AI Author"),
  ("moral", Json.str "M"),
  ("chapters", Json.arr [chapterOne])]

/-- A model response whose parsed chapter carries chapter number 7. -/
def rawChapterSeven : String :=
  "\x7b\"chapter_number\": 7, \"content\": \"hello\", \"image_prompt\": \"p\"\x7d"

/-- A model response with a tagged fence holding garbage followed by a
parseable brace span. -/
def rawFenceGarbage : String := "```json oops``` \x7b\"title\": \"X\"\x7d"

/-- Two chapter fixtures with distinct image prompts, and their story. -/
def chapterCastle : Json := Json.obj [("image_prompt", Json.str "castle at dawn")]

/-- Second chapter fixture. -/
def chapterDragon : Json := Json.obj [("image_prompt", Json.str "dragon lair")]

/-- Story fixture with two illustratable chapters. -/
def storyTwo : Json := Json.obj [
  ("title", Json.str "T"),
  ("chapters", Json.arr [chapterCastle, chapterDragon])]

/-- Chapter number of the chapter answered by `regenerate_chapter`, if any. -/
def regenChapterNumber : Option (RegenAns × Json) → Option Json
  | some (RegenAns.chap c, _) => getField c "chapter_number"
  | _ => none

/-- Number of chapters of a story record, when the field is a list. -/
def storyChapterCount (j : Json) : Option Nat :=
  match getField j "chapters" with
  | some (Json.arr l) => some l.length
  | _ => none

/-- Decoder for the first UTF-8 scalar of a byte stream, used only to prove
the encoding injective. -/
def utf8Decode1 : List Nat → Option (Nat × List Nat)
  | [] => none
  | b :: rest =>
    if b < 128 then some (b, rest)
    else if b < 224 then
      match rest with
      | b1 :: r => some ((b - 192) * 64 + (b1 - 128), r)
      | [] => none
    else if b < 240 then
      match rest with
      | b1 :: b2 :: r => some ((b - 224) * 4096 + (b1 - 128) * 64 + (b2 - 128), r)
      | _ => none
    else
      match rest with
      | b1 :: b2 :: b3 :: r =>
        some ((b - 240) * 262144 + (b1 - 128) * 4096 + (b2 - 128) * 64 + (b3 - 128), r)
      | _ => none

/-! Field-access algebra. -/

theorem lookupField_setPairs_self (fs : List (String × Json)) (k : String) (v : Json) :
    lookupField (setPairs fs k v) k = some v := by
  induction fs with
  | nil => simp [setPairs, lookupField]
  | cons f fs ih =>
    by_cases h : f.1 = k
    · simp [setPairs, h, lookupField]
    · simp [setPairs, h, lookupField, ih]

theorem lookupField_setPairs_ne (fs : List (String × Json)) (k k' : String) (v : Json)
    (h : k ≠ k') : lookupField (setPairs fs k v) k' = lookupField fs k' := by
  induction fs with
  | nil => simp [setPairs, lookupField, h]
  | cons f fs ih =>
    by_cases h2 : f.1 = k
    · simp [setPairs, h2, lookupField, h]
    · simp [setPairs, h2, lookupField, ih]

theorem getField_setField_self (j : Json) (k : String) (v : Json) (h : isObjJ j = true) :
    getField (setField j k v) k = some v := by
  cases j <;> simp_all [isObjJ, setField, getField, lookupField_setPairs_self]

theorem getField_setField_ne (j : Json) (k k' : String) (v : Json) (h : k ≠ k') :
    getField (setField j k v) k' = getField j k' := by
  cases j <;> simp [setField, getField, lookupField_setPairs_ne _ _ _ _ h]

theorem getField_isObj {j : Json} {k : String} {v : Json} (h : getField j k = some v) :
    isObjJ j = true := by
  cases j <;> simp_all [getField, isObjJ]

theorem isObj_setField {j : Json} (k : String) (v : Json) (h : isObjJ j = true) :
    isObjJ (setField j k v) = true := by
  cases j <;> simp_all [isObjJ, setField]

/-! Order lemmas for the sort comparators. -/

theorem strLtB_irrefl (as : List Char) : strLtB as as = false := by
  induction as with
  | nil => rfl
  | cons a as ih => simp [strLtB, lt_self_iff_false, ih]

theorem strLtB_asymm {as bs : List Char} (h : strLtB as bs = true) : strLtB bs as = false := by
  induction as generalizing bs with
  | nil =>
    cases bs with
    | nil => simp [strLtB] at h
    | cons b bs => rfl
  | cons a as ih =>
    cases bs with
    | nil => simp [strLtB] at h
    | cons b bs =>
      simp only [strLtB] at h ⊢
      rcases lt_trichotomy a b with hab | hab | hab
      · rw [if_neg (lt_asymm hab), if_pos hab]
      · subst hab
        rw [if_neg (lt_irrefl a), if_neg (lt_irrefl a)] at h ⊢
        exact ih h
      · rw [if_neg (lt_asymm hab), if_pos hab] at h
        exact absurd h (by simp)

theorem strLtB_trans {as bs cs : List Char} (h1 : strLtB as bs = true)
    (h2 : strLtB bs cs = true) : strLtB as cs = true := by
  induction as generalizing bs cs with
  | nil =>
    cases cs with
    | nil =>
      cases bs with
      | nil => simp [strLtB] at h2
      | cons b bs => simp [strLtB] at h2
    | cons c cs => rfl
  | cons a as ih =>
    cases bs with
    | nil => simp [strLtB] at h1
    | cons b bs =>
      cases cs with
      | nil => simp [strLtB] at h2
      | cons c cs =>
        simp only [strLtB] at h1 h2 ⊢
        rcases lt_trichotomy a b with hab | hab | hab
        · rcases lt_trichotomy b c with hbc | hbc | hbc
          · rw [if_pos (lt_trans hab hbc)]
          · subst hbc; rw [if_pos hab]
          · rw [if_neg (lt_asymm hbc), if_pos hbc] at h2
            exact absurd h2 (by simp)
        · subst hab
          rcases lt_trichotomy a c with hac | hac | hac
          · rw [if_pos hac]
          · subst hac
            rw [if_neg (lt_irrefl a), if_neg (lt_irrefl a)] at h1 h2 ⊢
            exact ih h1 h2
          · rw [if_neg (lt_asymm hac), if_pos hac] at h2
            exact absurd h2 (by simp)
        · rw [if_neg (lt_asymm hab), if_pos hab] at h1
          exact absurd h1 (by simp)

theorem strLtB_conn {as bs : List Char} (h1 : strLtB as bs = false)
    (h2 : strLtB bs as = false) : as = bs := by
  induction as generalizing bs with
  | nil =>
    cases bs with
    | nil => rfl
    | cons b bs => simp [strLtB] at h1
  | cons a as ih =>
    cases bs with
    | nil => simp [strLtB] at h2
    | cons b bs =>
      simp only [strLtB] at h1 h2
      rcases lt_trichotomy a b with hab | hab | hab
      · rw [if_pos hab] at h1; exact absurd h1 (by simp)
      · subst hab
        rw [if_neg (lt_irrefl a), if_neg (lt_irrefl a)] at h1 h2
        rw [ih h1 h2]
      · rw [if_pos hab] at h2; exact absurd h2 (by simp)

theorem keyLtB_eq_true_iff {a b : Nat × String} :
    keyLtB a b = true ↔ a.1 < b.1 ∨ (a.1 = b.1 ∧ strLtB a.2.data b.2.data = true) := by
  simp [keyLtB]

theorem keyLtB_asymm {a b : Nat × String} (h : keyLtB a b = true) : keyLtB b a = false := by
  cases hba : keyLtB b a with
  | false => rfl
  | true =>
    rw [keyLtB_eq_true_iff] at h hba
    rcases h with h | ⟨he, hs⟩ <;> rcases hba with h2 | ⟨he2, hs2⟩
    · omega
    · omega
    · omega
    · exact absurd hs2 (by simp [strLtB_asymm hs])

theorem keyLtB_trans {a b c : Nat × String} (h1 : keyLtB a b = true)
    (h2 : keyLtB b c = true) : keyLtB a c = true := by
  rw [keyLtB_eq_true_iff] at h1 h2 ⊢
  rcases h1 with h1 | ⟨he1, hs1⟩ <;> rcases h2 with h2 | ⟨he2, hs2⟩
  · exact Or.inl (by omega)
  · exact Or.inl (by omega)
  · exact Or.inl (by omega)
  · exact Or.inr ⟨by omega, strLtB_trans hs1 hs2⟩

theorem keyLtB_conn {a b : Nat × String} (h1 : keyLtB a b = false)
    (h2 : keyLtB b a = false) : a = b := by
  have n1 : ¬ (a.1 < b.1 ∨ (a.1 = b.1 ∧ strLtB a.2.data b.2.data = true)) := by
    rw [← keyLtB_eq_true_iff]; simp [h1]
  have n2 : ¬ (b.1 < a.1 ∨ (b.1 = a.1 ∧ strLtB b.2.data a.2.data = true)) := by
    rw [← keyLtB_eq_true_iff]; simp [h2]
  push_neg at n1 n2
  have he : a.1 = b.1 := by omega
  have hs1 : strLtB a.2.data b.2.data = false := by
    have := n1.2 he
    simpa using this
  have hs2 : strLtB b.2.data a.2.data = false := by
    have := n2.2 he.symm
    simpa using this
  have hd : a.2 = b.2 := String.ext (strLtB_conn hs1 hs2)
  exact Prod.ext he hd

instance : IsTotal String rankGE :=
  ⟨fun a b => by
    unfold rankGE
    cases h : keyLtB (pyKey a) (pyKey b) with
    | false => exact Or.inl rfl
    | true => exact Or.inr (keyLtB_asymm h)⟩

instance : IsTrans String rankGE :=
  ⟨fun a b c hab hbc => by
    unfold rankGE at *
    cases hac : keyLtB (pyKey a) (pyKey c) with
    | false => rfl
    | true =>
      cases hba : keyLtB (pyKey b) (pyKey a) with
      | false =>
        have he := keyLtB_conn hab hba
        rw [he] at hac
        rw [hbc] at hac
        exact absurd hac (by simp)
      | true =>
        cases hcb : keyLtB (pyKey c) (pyKey b) with
        | false =>
          have he := keyLtB_conn hbc hcb
          rw [← he] at hac
          rw [hab] at hac
          exact absurd hac (by simp)
        | true =>
          have h3 := keyLtB_trans hcb hba
          have h4 := keyLtB_asymm h3
          rw [hac] at h4
          exact absurd h4 (by simp)⟩

/-! Injectivity of the URL construction. -/

theorem toNat_ofNat_lt {n : Nat} (h : n < 55296) : (Char.ofNat n).toNat = n := by
  have hv : n.isValidChar := Or.inl h
  unfold Char.ofNat
  rw [dif_pos hv]
  simp [Char.ofNatAux, Char.toNat]
  rfl

theorem char_toNat_lt (c : Char) : c.toNat < 1114112 := by
  rcases c.valid with h | ⟨h1, h2⟩
  · have : c.toNat < 55296 := h
    omega
  · have : c.toNat < 1114112 := h2
    omega


theorem utf8Bytes_lt_256 (c : Char) : ∀ b ∈ utf8Bytes c, b < 256 := by
  have hc := char_toNat_lt c
  intro b hb
  unfold utf8Bytes at hb
  by_cases h1 : c.toNat < 128
  · rw [if_pos h1] at hb
    simp only [List.mem_singleton] at hb
    omega
  · rw [if_neg h1] at hb
    by_cases h2 : c.toNat < 2048
    · rw [if_pos h2] at hb
      simp only [List.mem_cons, List.not_mem_nil, or_false] at hb
      rcases hb with h | h <;> omega
    · rw [if_neg h2] at hb
      by_cases h3 : c.toNat < 65536
      · rw [if_pos h3] at hb
        simp only [List.mem_cons, List.not_mem_nil, or_false] at hb
        rcases hb with h | h | h <;> omega
      · rw [if_neg h3] at hb
        simp only [List.mem_cons, List.not_mem_nil, or_false] at hb
        rcases hb with h | h | h | h <;> omega

theorem utf8Decode1_encode (c : Char) (rest : List Nat) :
    utf8Decode1 (utf8Bytes c ++ rest) = some (c.toNat, rest) := by
  have hc := char_toNat_lt c
  unfold utf8Bytes
  by_cases h1 : c.toNat < 128
  · rw [if_pos h1]
    simp only [List.cons_append, List.nil_append, utf8Decode1]
    rw [if_pos h1]
  · rw [if_neg h1]
    by_cases h2 : c.toNat < 2048
    · rw [if_pos h2]
      simp only [List.cons_append, List.nil_append, utf8Decode1]
      rw [if_neg (show ¬ (192 + c.toNat / 64 < 128) by omega),
        if_pos (show 192 + c.toNat / 64 < 224 by omega)]
      show some ((192 + c.toNat / 64 - 192) * 64 + (128 + c.toNat % 64 - 128), rest) =
        some (c.toNat, rest)
      exact congrArg (fun x => some (x, rest)) (by omega)
    · rw [if_neg h2]
      by_cases h3 : c.toNat < 65536
      · rw [if_pos h3]
        simp only [List.cons_append, List.nil_append, utf8Decode1]
        rw [if_neg (show ¬ (224 + c.toNat / 4096 < 128) by omega),
          if_neg (show ¬ (224 + c.toNat / 4096 < 224) by omega),
          if_pos (show 224 + c.toNat / 4096 < 240 by omega)]
        show some ((224 + c.toNat / 4096 - 224) * 4096 + (128 + c.toNat / 64 % 64 - 128) * 64 +
            (128 + c.toNat % 64 - 128), rest) = some (c.toNat, rest)
        exact congrArg (fun x => some (x, rest)) (by omega)
      · rw [if_neg h3]
        simp only [List.cons_append, List.nil_append, utf8Decode1]
        rw [if_neg (show ¬ (240 + c.toNat / 262144 < 128) by omega),
          if_neg (show ¬ (240 + c.toNat / 262144 < 224) by omega),
          if_neg (show ¬ (240 + c.toNat / 262144 < 240) by omega)]
        show some ((240 + c.toNat / 262144 - 240) * 262144 + (128 + c.toNat / 4096 % 64 - 128) * 4096 +
            (128 + c.toNat / 64 % 64 - 128) * 64 + (128 + c.toNat % 64 - 128), rest) =
          some (c.toNat, rest)
        exact congrArg (fun x => some (x, rest)) (by omega)

theorem char_toNat_inj {a b : Char} (h : a.toNat = b.toNat) : a = b := by
  apply Char.ext
  apply UInt32.ext
  exact h

theorem utf8_flatMap_inj (l1 l2 : List Char)
    (h : l1.flatMap utf8Bytes = l2.flatMap utf8Bytes) : l1 = l2 := by
  induction l1 generalizing l2 with
  | nil =>
    cases l2 with
    | nil => rfl
    | cons b l2 =>
      have hd := congrArg utf8Decode1 h
      rw [List.flatMap_nil, List.flatMap_cons, utf8Decode1_encode] at hd
      simp [utf8Decode1] at hd
  | cons a l1 ih =>
    cases l2 with
    | nil =>
      have hd := congrArg utf8Decode1 h
      rw [List.flatMap_nil, List.flatMap_cons, utf8Decode1_encode] at hd
      simp [utf8Decode1] at hd
    | cons b l2 =>
      have hd := congrArg utf8Decode1 h
      rw [List.flatMap_cons, List.flatMap_cons, utf8Decode1_encode, utf8Decode1_encode] at hd
      simp only [Option.some.injEq, Prod.mk.injEq] at hd
      rw [char_toNat_inj hd.1, ih _ hd.2]

theorem isSafeByte_facts {b : Nat} (h : isSafeByte b = true) : b < 128 ∧ b ≠ 37 := by
  simp only [isSafeByte, Bool.or_eq_true, Bool.and_eq_true, decide_eq_true_eq] at h
  omega

theorem hexNibble_hexDigitChar {n : Nat} (h : n < 16) :
    hexNibble (hexDigitChar n) = n := by
  interval_cases n <;> rfl

theorem pctDecode_encode (bs : List Nat) (h : ∀ b ∈ bs, b < 256) :
    pctDecode (bs.flatMap pctByte) = some bs := by
  induction bs with
  | nil => rfl
  | cons b bs ih =>
    have hb : b < 256 := h b (List.mem_cons_self b bs)
    have ihb := ih (fun x hx => h x (List.mem_cons_of_mem b hx))
    rw [List.flatMap_cons]
    by_cases hs : isSafeByte b = true
    · obtain ⟨hlt, hne⟩ := isSafeByte_facts hs
      rw [pctByte, if_pos hs]
      simp only [List.cons_append, List.nil_append]
      unfold pctDecode
      rw [if_neg (by
        intro hcontra
        have h37 : (Char.ofNat b).toNat = 37 := by rw [hcontra]; rfl
        rw [toNat_ofNat_lt (by omega)] at h37
        exact hne h37)]
      rw [ihb]
      simp only [Option.map_some']
      rw [toNat_ofNat_lt (by omega)]
    · rw [pctByte, if_neg hs]
      simp only [List.cons_append, List.nil_append]
      unfold pctDecode
      rw [if_pos rfl]
      show Option.map (fun bs2 => (16 * hexNibble (hexDigitChar (b / 16)) +
        hexNibble (hexDigitChar (b % 16))) :: bs2) (pctDecode (bs.flatMap pctByte)) =
        some (b :: bs)
      rw [ihb]
      simp only [Option.map_some', Option.some.injEq, List.cons.injEq, and_true]
      rw [hexNibble_hexDigitChar (by omega), hexNibble_hexDigitChar (by omega)]
      omega

theorem quote_injective {p q : String} (h : quote p = quote q) : p = q := by
  unfold quote at h
  have hdata : (p.data.flatMap utf8Bytes).flatMap pctByte =
      (q.data.flatMap utf8Bytes).flatMap pctByte := congrArg String.data h
  have hp := pctDecode_encode (p.data.flatMap utf8Bytes)
    (by intro b hb
        simp only [List.mem_flatMap] at hb
        obtain ⟨c, _, hc⟩ := hb
        exact utf8Bytes_lt_256 c b hc)
  have hq := pctDecode_encode (q.data.flatMap utf8Bytes)
    (by intro b hb
        simp only [List.mem_flatMap] at hb
        obtain ⟨c, _, hc⟩ := hb
        exact utf8Bytes_lt_256 c b hc)
  rw [hdata] at hp
  rw [hp] at hq
  have hbytes : p.data.flatMap utf8Bytes = q.data.flatMap utf8Bytes := by
    injection hq
  exact String.ext (utf8_flatMap_inj _ _ hbytes)

theorem generate_image_prompt_inj {p q : String} {w h : Nat}
    (he : generate_image p w h = generate_image q w h) : p = q := by
  unfold generate_image at he
  have hd := congrArg String.data he
  simp only [String.data_append] at hd
  have h1 := List.append_cancel_right hd
  have h2 := List.append_cancel_right h1
  have h3 := List.append_cancel_right h2
  have h4 := List.append_cancel_right h3
  have h5 := List.append_cancel_right h4
  have h6 := List.append_cancel_left h5
  exact quote_injective (String.ext h6)

/-! Helper lemmas about `regenerate_chapter`. -/

theorem regen_eq_core (o : DefOracle) (story : Json) (chs : List Json) (n : Int)
    (resp : Option String) (h : getField story "chapters" = some (Json.arr chs))
    (h1 : 1 ≤ n) (h2 : n ≤ (chs.length : Int)) :
    regenerate_chapter o story n resp = regenCore o story chs n resp := by
  simp only [regenerate_chapter, h]
  rw [if_neg (by omega)]

theorem regen_out_of_range (o : DefOracle) (story : Json) (chs : List Json) (n : Int)
    (resp : Option String) (h : getField story "chapters" = some (Json.arr chs))
    (hout : n < 1 ∨ (chs.length : Int) < n) :
    regenerate_chapter o story n resp = some (RegenAns.invalid, story) := by
  simp only [regenerate_chapter, h]
  rw [if_pos (by omega)]

theorem regenAfterParse_ne_invalid (o : DefOracle) (story : Json) (chs : List Json)
    (n : Int) (j : Json) : (regenAfterParse o story chs n j).1 ≠ RegenAns.invalid := by
  unfold regenAfterParse
  split
  · dsimp only
    split
    · simp
    · simp
  · simp

theorem regenCore_ne_invalid (o : DefOracle) (story : Json) (chs : List Json) (n : Int)
    (resp : Option String) (s2 : Json) :
    regenCore o story chs n resp ≠ some (RegenAns.invalid, s2) := by
  unfold regenCore
  split
  · simp
  · split
    · simp
    · intro hcontra
      split at hcontra
      · simp at hcontra
      · split at hcontra
        · simp at hcontra
        · simp only [Option.some.injEq] at hcontra
          exact regenAfterParse_ne_invalid o story chs n _ (congrArg Prod.fst hcontra)
        · simp only [Option.some.injEq] at hcontra
          exact regenAfterParse_ne_invalid o story chs n _ (congrArg Prod.fst hcontra)

theorem regenCore_none (o : DefOracle) (story : Json) (chs : List Json) (n : Int)
    (ht : (getField story "title").isSome = true)
    (hp : hasPrevContext chs (n - 1).toNat = true) :
    regenCore o story chs n none = some (RegenAns.chap (fallbackChapter n), story) := by
  unfold regenCore
  cases hgf : getField story "title" with
  | none => rw [hgf] at ht; simp at ht
  | some t =>
    rw [if_neg (by simp)]
    rw [if_neg (fun hcon => hcon hp)]

theorem regenCore_parsed (o : DefOracle) (story : Json) (chs : List Json) (n : Int)
    (raw : String) (j : Json)
    (ht : (getField story "title").isSome = true)
    (hp : hasPrevContext chs (n - 1).toNat = true)
    (hl : parseLadder raw = ParseOutcome.parsed j) :
    regenCore o story chs n (some raw) = some (regenAfterParse o story chs n j) := by
  unfold regenCore
  cases hgf : getField story "title" with
  | none => rw [hgf] at ht; simp at ht
  | some t =>
    rw [if_neg (by simp)]
    rw [if_neg (fun hcon => hcon hp)]
    simp only [hl]

theorem regenAfterParse_success (o : DefOracle) (story : Json) (chs : List Json) (n : Int)
    (j : Json) (s : String) (hc : getField j "content" = some (Json.str s))
    (hip : (getField j "image_prompt").isSome = true) :
    ∃ c, regenAfterParse o story chs n j =
        (RegenAns.chap c, setChapterAt story chs (n - 1).toNat c) ∧
      (getField c "image").isSome = true := by
  obtain ⟨p, hps⟩ := Option.isSome_iff_exists.mp hip
  have hne : getField (setField j "terminology" (defsToJson (extract_terminology o s)))
      "image_prompt" = getField j "image_prompt" :=
    getField_setField_ne _ _ _ _ (by decide)
  unfold regenAfterParse
  simp only [hc, hne, hps]
  refine ⟨_, rfl, ?_⟩
  rw [getField_setField_self _ _ _ (isObj_setField _ _ (getField_isObj hc))]
  rfl

/-! Deduplication lemmas. -/

theorem dedupGo_subset {seen l : List String} {x : String} (h : x ∈ dedupGo seen l) :
    x ∈ l := by
  induction l generalizing seen with
  | nil => simp [dedupGo] at h
  | cons w ws ih =>
    simp only [dedupGo] at h
    split at h
    · exact List.mem_cons_of_mem _ (ih h)
    · rcases List.mem_cons.mp h with h2 | h2
      · exact h2 ▸ List.mem_cons_self _ _
      · exact List.mem_cons_of_mem _ (ih h2)

theorem dedupGo_not_seen {seen l : List String} {x : String} (h : x ∈ dedupGo seen l) :
    pyLower x ∉ seen := by
  induction l generalizing seen with
  | nil => simp [dedupGo] at h
  | cons w ws ih =>
    simp only [dedupGo] at h
    split at h
    · exact ih h
    · rcases List.mem_cons.mp h with h2 | h2
      · subst h2
        rename_i hni
        exact hni
      · intro hmem
        exact ih h2 (List.mem_cons_of_mem _ hmem)

theorem dedupGo_pairwise (seen l : List String) :
    List.Pairwise (fun a b => pyLower a ≠ pyLower b) (dedupGo seen l) := by
  induction l generalizing seen with
  | nil => exact List.Pairwise.nil
  | cons w ws ih =>
    simp only [dedupGo]
    split
    · exact ih seen
    · refine List.Pairwise.cons ?_ (ih _)
      intro b hb heq
      exact dedupGo_not_seen hb (heq ▸ List.mem_cons_self _ _)

theorem dedupGo_complete {l : List String} {w : String} (seen : List String)
    (h : w ∈ l) (hs : pyLower w ∉ seen) :
    ∃ v ∈ dedupGo seen l, pyLower v = pyLower w := by
  induction l generalizing seen with
  | nil => simp at h
  | cons u us ih =>
    simp only [dedupGo]
    rcases List.mem_cons.mp h with h2 | h2
    · subst h2
      split
      · rename_i hin; exact absurd hin hs
      · exact ⟨w, List.mem_cons_self _ _, rfl⟩
    · split
      · exact ih seen h2 hs
      · by_cases hq : pyLower w = pyLower u
        · exact ⟨u, List.mem_cons_self _ _, hq.symm⟩
        · obtain ⟨v, hv1, hv2⟩ := ih (pyLower u :: seen) h2 (by
            intro hmem
            rcases List.mem_cons.mp hmem with h3 | h3
            · exact hq h3
            · exact hs h3)
          exact ⟨v, List.mem_cons_of_mem _ hv1, hv2⟩

theorem mem_filtered_words {text : String} {w : String} (h : w ∈ filtered_words text) :
    w ∈ findallWords text ∧ common_words.contains (pyLower w) = false ∧
      pyIsUpper w = false ∧ 6 ≤ w.length := by
  rw [filtered_words, List.mem_filter] at h
  obtain ⟨h1, h2⟩ := h
  simp only [Bool.and_eq_true, Bool.not_eq_true', decide_eq_true_eq] at h2
  exact ⟨h1, h2.1.1.1, h2.1.1.2, h2.1.2⟩

/-! Claim theorems. -/

/-- C10: `generate_image` is deterministic — a pure function of its prompt,
width and height: two calls with equal arguments return the same URL, namely
the fixed service URL embedding the percent-encoded prompt and the given
width and height, and the output depends on no other state (the embedded
function has no other inputs; the `try` body cannot raise on a string
prompt). -/
theorem C10_generate_image_deterministic (p q : String) (w h w2 h2 : Nat)
    (hp : p = q) (hw : w = w2) (hh : h = h2) :
    generate_image p w h = generate_image q w2 h2 ∧
    generate_image p w h =
      "https://image.pollinations.ai/prompt/" ++ quote p ++ "?width=" ++ natToStr w ++
        "&height=" ++ natToStr h ++ "&nologo=true" :=
  ⟨by rw [hp, hw, hh], rfl⟩

/-- C10 witness: evaluated at the prompt and dimensions of the code's own
fallback constant; the resulting URL is exactly the constant the source
hard-codes, checking the `quote` embedding against the source text. -/
theorem C10_witness :
    generate_image "scenic view" 800 600 = generate_image "scenic view" 800 600 ∧
    generate_image "scenic view" 800 600 =
      "https://image.pollinations.ai/prompt/" ++ quote "scenic view" ++ "?width=" ++
        natToStr 800 ++ "&height=" ++ natToStr 600 ++ "&nologo=true" :=
  C10_generate_image_deterministic "scenic view" "scenic view" 800 600 800 600 rfl rfl rfl

/-- C8 (amended): at the Create interface, any hashable storyLength outside
the enum short/medium/long/grand — a non-enum string, a number, a boolean,
null, or a missing value — is silently mapped to a requested chapter count of
3, identical to "short"; an array- or object-valued storyLength, however, is
not mapped to 3: it is an unhashable dict key, `dict.get` raises `TypeError`,
and the route reports the request as failed instead. -/
theorem C8_story_length_mapping (v : Option Json)
    (h1 : v ≠ some (Json.str "short")) (h2 : v ≠ some (Json.str "medium"))
    (h3 : v ≠ some (Json.str "long")) (h4 : v ≠ some (Json.str "grand"))
    (h5 : ∀ l, v ≠ some (Json.arr l)) (h6 : ∀ fs, v ≠ some (Json.obj fs)) :
    num_chapters v = some 3 ∧ num_chapters none = some 3 ∧
    num_chapters (some (Json.str "short")) = some 3 ∧
    num_chapters (some (Json.str "medium")) = some 5 ∧
    num_chapters (some (Json.str "long")) = some 7 ∧
    num_chapters (some (Json.str "grand")) = some 10 ∧
    (∀ l, num_chapters (some (Json.arr l)) = none) ∧
    (∀ fs, num_chapters (some (Json.obj fs)) = none) := by
  refine ⟨?_, rfl, rfl, rfl, rfl, rfl, fun l => rfl, fun fs => rfl⟩
  cases v with
  | none => rfl
  | some j =>
    cases j with
    | str s =>
      by_cases hs1 : s = "short"
      · subst hs1; rfl
      · by_cases hs2 : s = "medium"
        · subst hs2; exact absurd rfl h2
        · by_cases hs3 : s = "long"
          · subst hs3; exact absurd rfl h3
          · by_cases hs4 : s = "grand"
            · subst hs4; exact absurd rfl h4
            · simp [num_chapters, hs1, hs2, hs3, hs4]
    | null => rfl
    | bool b => rfl
    | num n => rfl
    | arr l => exact absurd rfl (h5 l)
    | obj fs => exact absurd rfl (h6 fs)

/-- C8 witness: the unknown string "epic" maps to 3 like "short", while an
array value produces no chapter count at all. -/
theorem C8_witness :
    num_chapters (some (Json.str "epic")) = some 3 ∧ num_chapters none = some 3 ∧
    num_chapters (some (Json.str "short")) = some 3 ∧
    num_chapters (some (Json.str "medium")) = some 5 ∧
    num_chapters (some (Json.str "long")) = some 7 ∧
    num_chapters (some (Json.str "grand")) = some 10 ∧
    (∀ l, num_chapters (some (Json.arr l)) = none) ∧
    (∀ fs, num_chapters (some (Json.obj fs)) = none) := by
  refine C8_story_length_mapping (some (Json.str "epic")) ?_ ?_ ?_ ?_ ?_ ?_
  · intro hcontra
    injection hcontra with hj
    injection hj with hstr
    exact absurd hstr (by decide)
  · intro hcontra
    injection hcontra with hj
    injection hj with hstr
    exact absurd hstr (by decide)
  · intro hcontra
    injection hcontra with hj
    injection hj with hstr
    exact absurd hstr (by decide)
  · intro hcontra
    injection hcontra with hj
    injection hj with hstr
    exact absurd hstr (by decide)
  · intro l hcontra
    injection hcontra with hj
    exact Json.noConfusion hj
  · intro fs hcontra
    injection hcontra with hj
    exact Json.noConfusion hj

/-- C8 counterexample: an array- or object-valued storyLength is not silently
mapped to 3 — `dict.get` raises `TypeError` on the unhashable key and the
request fails with an error response instead of proceeding like "short". -/
theorem C8_counterexample :
    num_chapters (some (Json.arr [])) = none ∧
    num_chapters (some (Json.obj [])) = none ∧
    (none : Option Nat) ≠ some 3 :=
  ⟨rfl, rfl, by decide⟩

/-- C1 (amended): `generate_story` never lets a parse exception escape: every
failure path resolves to the terminal default record, which itself carries
title, author, moral and one chapter; but a response that the recovery ladder
parses is returned after terminology enrichment without structural
validation, so it is not always a structurally valid Story record. -/
theorem C1_generate_story_safety (o : DefOracle) (genre : String) (resp : Option String) :
    validStory (defaultStory genre) = true ∧
    ((∃ j, addTerminology o j = some (generate_story o genre resp)) ∨
      generate_story o genre resp = defaultStory genre) := by
  refine ⟨rfl, ?_⟩
  cases resp with
  | none => exact Or.inr rfl
  | some raw =>
    cases hl : parseLadder raw with
    | parsed j =>
      cases ha : addTerminology o j with
      | some j2 =>
        refine Or.inl ⟨j, ?_⟩
        rw [ha]
        have : generate_story o genre (some raw) = j2 := by simp [generate_story, hl, ha]
        rw [this]
      | none => exact Or.inr (by simp [generate_story, hl, ha])
    | defaulted =>
      cases ha : addTerminology o (defaultStory genre) with
      | some j2 =>
        refine Or.inl ⟨defaultStory genre, ?_⟩
        rw [ha]
        have : generate_story o genre (some raw) = j2 := by simp [generate_story, hl, ha]
        rw [this]
      | none => exact Or.inr (by simp [generate_story, hl, ha])
    | raised => exact Or.inr (by simp [generate_story, hl])

/-- C1 counterexample: the directly valid JSON response consisting of just an
empty chapters list is returned as-is — the result has no title, no author,
no moral and an empty chapter sequence, so the extraction does not always
return a structurally valid Story record. -/
theorem C1_counterexample :
    validStory (generate_story oracleFail "fantasy" (some "\x7b\"chapters\": []\x7d")) = false ∧
    getField (generate_story oracleFail "fantasy" (some "\x7b\"chapters\": []\x7d")) "chapters" =
      some (Json.arr []) ∧
    getField (generate_story oracleFail "fantasy" (some "\x7b\"chapters\": []\x7d")) "title" =
      none :=
  ⟨rfl, rfl, rfl⟩

/-- C5 (amended): the mapping `extract_terminology` returns never contains an
empty value or the single-word-retry sentinel "No definition available" —
those are filtered out — and an empty candidate set yields an empty mapping;
however, a total failure of the batched request surfaces per-word
"Definition not available due to error: ..." placeholders, which the filter
does not remove (see the counterexample). -/
theorem C5_sentinel_filter (o : DefOracle) (text : String) :
    (∀ kv ∈ extract_terminology o text, kv.2 ≠ "" ∧ kv.2 ≠ "No definition available") ∧
    (selected_words text = [] → extract_terminology o text = []) := by
  constructor
  · intro kv hkv
    unfold extract_terminology at hkv
    split at hkv
    · simp at hkv
    · rw [List.mem_filter] at hkv
      have h2 := hkv.2
      simp only [Bool.and_eq_true, Bool.not_eq_true', beq_eq_false_iff_ne] at h2
      exact h2
  · intro h
    unfold extract_terminology
    rw [if_pos h]

/-- C5 witness: a text with no six-letter candidate yields the empty mapping. -/
theorem C5_witness : extract_terminology oracleFail "hi" = [] :=
  (C5_sentinel_filter oracleFail "hi").2 rfl

/-- C5 counterexample: when the batched definition request itself raises, the
whole error dictionary survives the filter — the returned mapping for the
single candidate "banana" is the unresolved error placeholder, which the
caller sees. -/
theorem C5_counterexample :
    extract_terminology oracleFail "banana" =
      [("banana", "Definition not available due to error: boom")] ∧
    (extract_terminology oracleFail "banana").any (fun kv => unresolvedPlaceholder kv.2) =
      true :=
  ⟨rfl, rfl⟩

/-- C6 (corrected): a Create request with storyLength "short" asks the prompt
for 3 chapters, but the returned story's chapter count is whatever extraction
yields: on every terminal-default path (failing model call, raising ladder,
exhausted ladder) the story has exactly one chapter, numbered 1 — not 3. -/
theorem C6_short_chapter_count (o : DefOracle) (genre : String) (resp : Option String)
    (h : resp = none ∨ ∃ raw, resp = some raw ∧
      (parseLadder raw = ParseOutcome.raised ∨ parseLadder raw = ParseOutcome.defaulted)) :
    num_chapters (some (Json.str "short")) = some 3 ∧
    ∃ c, getField (generate_story o genre resp) "chapters" = some (Json.arr [c]) ∧
      getField c "chapter_number" = some (Json.num 1) := by
  refine ⟨rfl, ?_⟩
  have hdef : getField (defaultStory genre) "chapters" = some (Json.arr [defaultChapterStory]) :=
    rfl
  have hnum : getField defaultChapterStory "chapter_number" = some (Json.num 1) := rfl
  rcases h with h | ⟨raw, hr, hcase⟩
  · subst h
    exact ⟨defaultChapterStory, hdef, hnum⟩
  · subst hr
    rcases hcase with hl | hl
    · simp only [generate_story, hl]
      exact ⟨defaultChapterStory, hdef, hnum⟩
    · have hen : addTerminology o (defaultStory genre) =
          some (setField (defaultStory genre) "chapters" (Json.arr
            [setField defaultChapterStory "terminology"
              (defsToJson (extract_terminology o
                "Story generation failed. Please try again."))])) := rfl
      simp only [generate_story, hl, hen]
      refine ⟨setField defaultChapterStory "terminology"
        (defsToJson (extract_terminology o
          "Story generation failed. Please try again.")), ?_, ?_⟩
      · exact getField_setField_self _ _ _ rfl
      · rw [getField_setField_ne _ _ _ _ (by decide)]
        exact hnum

/-- C6 witness: a failing model call on a short request gives a one-chapter
story numbered 1. -/
theorem C6_witness :
    num_chapters (some (Json.str "short")) = some 3 ∧
    ∃ c, getField (generate_story oracleFail "fantasy" none) "chapters" =
        some (Json.arr [c]) ∧
      getField c "chapter_number" = some (Json.num 1) :=
  C6_short_chapter_count oracleFail "fantasy" none (Or.inl rfl)

/-- C6 counterexample: a short Create whose model response is plain prose
yields a story with exactly 1 chapter, not 3: the requested chapter count
only reaches the prompt, never the terminal default record. -/
theorem C6_counterexample :
    num_chapters (some (Json.str "short")) = some 3 ∧
    storyChapterCount
        (generate_story oracleFail "fantasy" (some "no structured output at all")) =
      some 1 ∧
    (1 : Nat) ≠ 3 :=
  ⟨rfl, rfl, by decide⟩

/-- C3 (corrected): the full-Story recovery ladder is direct parse, then a
tagged ```json fence, then the first-to-last brace span — there is no
untagged-fence rung, and when a tagged fenced block is found but its contents
fail to parse, the raised exception lands in the terminal default record
without attempting any later rung; the brace span is consulted only when no
tagged fence is present. -/
theorem C3_ladder_structure (o : DefOracle) (genre raw inner span : String) :
    (∀ j, json_loads raw = some j → parseLadder raw = ParseOutcome.parsed j) ∧
    (json_loads raw = none → fenceInner "```json" raw = some inner →
      json_loads inner = none →
      parseLadder raw = ParseOutcome.raised ∧
      generate_story o genre (some raw) = defaultStory genre) ∧
    (json_loads raw = none → fenceInner "```json" raw = none → braceSpan raw = some span →
      ∀ j, json_loads span = some j → parseLadder raw = ParseOutcome.parsed j) := by
  refine ⟨?_, ?_, ?_⟩
  · intro j hj
    simp [parseLadder, hj]
  · intro hd hf hi
    have hl : parseLadder raw = ParseOutcome.raised := by simp [parseLadder, hd, hf, hi]
    exact ⟨hl, by simp [generate_story, hl]⟩
  · intro hd hf hb j hj
    simp [parseLadder, hd, hf, hb, hj]

/-- C3 witness: on a tagged fence holding garbage followed by a parseable
brace span, the code's ladder raises and the terminal default story comes
back. -/
theorem C3_witness :
    parseLadder rawFenceGarbage = ParseOutcome.raised ∧
    generate_story oracleFail "fantasy" (some rawFenceGarbage) = defaultStory "fantasy" :=
  (C3_ladder_structure oracleFail "fantasy" rawFenceGarbage "oops" "").2.1 rfl rfl rfl

/-- C3 counterexample: on the same input the specification's four-rung ladder
(with an untagged-fence rung and fall-through after a failed fence parse)
parses the brace span into a record, while the code's ladder raises and the
pipeline answers the terminal default record instead. -/
theorem C3_counterexample :
    parseLadder rawFenceGarbage = ParseOutcome.raised ∧
    extractLadderSpec rawFenceGarbage = some (Json.obj [("title", Json.str "X")]) ∧
    generate_story oracleFail "adventure" (some rawFenceGarbage) = defaultStory "adventure" :=
  ⟨rfl, rfl, rfl⟩

/-- C2 (amended): `regenerate_chapter` answers the out-of-range error exactly
when chapterNumber < 1 or chapterNumber > len(chapters), with the story left
unmodified; the fallback chapters it builds are numbered exactly
chapterNumber (shown here for a failing model call), but a successfully
parsed model response is returned with whatever chapter_number it carried
(see the counterexample), so the in-range answer is not always numbered
chapterNumber. -/
theorem C2_regen_range (o : DefOracle) (story : Json) (chs : List Json) (n : Int)
    (resp : Option String) (h : getField story "chapters" = some (Json.arr chs)) :
    (regenerate_chapter o story n resp = some (RegenAns.invalid, story) ↔
      n < 1 ∨ (chs.length : Int) < n) ∧
    (1 ≤ n → n ≤ (chs.length : Int) → resp = none →
      (getField story "title").isSome = true → hasPrevContext chs (n - 1).toNat = true →
      regenerate_chapter o story n resp = some (RegenAns.chap (fallbackChapter n), story)) ∧
    getField (fallbackChapter n) "chapter_number" = some (Json.num n) := by
  refine ⟨⟨?_, ?_⟩, ?_, rfl⟩
  · intro hres
    by_contra hout
    push_neg at hout
    rw [regen_eq_core o story chs n resp h (by omega) (by omega)] at hres
    exact regenCore_ne_invalid o story chs n resp story hres
  · intro hout
    exact regen_out_of_range o story chs n resp h hout
  · intro h1 h2 h3 h4 h5
    subst h3
    rw [regen_eq_core o story chs n none h h1 h2]
    exact regenCore_none o story chs n h4 h5

/-- C2 witness: on a one-chapter story, chapter 5 answers the out-of-range
error with the story unchanged, and an in-range failing regeneration answers
the fallback chapter numbered exactly 1. -/
theorem C2_witness :
    regenerate_chapter oracleFail storyOne 5 none = some (RegenAns.invalid, storyOne) ∧
    regenerate_chapter oracleFail storyOne 1 none =
      some (RegenAns.chap (fallbackChapter 1), storyOne) ∧
    getField (fallbackChapter 1) "chapter_number" = some (Json.num 1) := by
  refine ⟨?_, ?_, ?_⟩
  · exact (C2_regen_range oracleFail storyOne [chapterOne] 5 none rfl).1.mpr (by decide)
  · exact (C2_regen_range oracleFail storyOne [chapterOne] 1 none rfl).2.1 (by decide)
      (by decide) rfl rfl rfl
  · exact (C2_regen_range oracleFail storyOne [chapterOne] 1 none rfl).2.2

/-- C2 counterexample: an in-range regeneration (chapterNumber 1) whose model
response parses with chapter_number 7 answers a chapter numbered 7, not 1. -/
theorem C2_counterexample :
    regenChapterNumber (regenerate_chapter oracleFail storyOne 1 (some rawChapterSeven)) =
      some (Json.num 7) ∧ Json.num 7 ≠ Json.num 1 := by
  refine ⟨rfl, ?_⟩
  intro hcontra
  injection hcontra with h1
  exact absurd h1 (by decide)

/-- C9: when the model call inside an in-range `regenerate_chapter` raises,
the function answers the fallback chapter, which carries no image field, and
the story's chapter list is left unchanged; on the successful path the
chapter at index chapterNumber-1 is replaced by the very chapter object that
is returned, and that object has its image field set. -/
theorem C9_regen_error_vs_success (o : DefOracle) (story : Json) (chs : List Json) (n : Int)
    (resp : Option String) (h : getField story "chapters" = some (Json.arr chs))
    (h1 : 1 ≤ n) (h2 : n ≤ (chs.length : Int))
    (ht : (getField story "title").isSome = true)
    (hp : hasPrevContext chs (n - 1).toNat = true) :
    (resp = none →
      regenerate_chapter o story n resp = some (RegenAns.chap (fallbackChapter n), story) ∧
      getField (fallbackChapter n) "image" = none) ∧
    (∀ raw j s, resp = some raw → parseLadder raw = ParseOutcome.parsed j →
      getField j "content" = some (Json.str s) →
      (getField j "image_prompt").isSome = true →
      ∃ c, regenerate_chapter o story n resp =
          some (RegenAns.chap c, setChapterAt story chs (n - 1).toNat c) ∧
        (getField c "image").isSome = true) := by
  constructor
  · intro h3
    subst h3
    rw [regen_eq_core o story chs n none h h1 h2]
    exact ⟨regenCore_none o story chs n ht hp, rfl⟩
  · intro raw j s hresp hl hc hip
    subst hresp
    rw [regen_eq_core o story chs n (some raw) h h1 h2,
      regenCore_parsed o story chs n raw j ht hp hl]
    obtain ⟨c, hcEq, hcImg⟩ := regenAfterParse_success o story chs n j s hc hip
    exact ⟨c, by rw [hcEq], hcImg⟩

/-- C9 witness: the failing call on a one-chapter story answers the
image-less fallback with the story untouched; regenerating the same chapter
from a well-formed response replaces it with the returned chapter, whose
image field is set. -/
theorem C9_witness :
    (regenerate_chapter oracleFail storyOne 1 none =
        some (RegenAns.chap (fallbackChapter 1), storyOne) ∧
      getField (fallbackChapter 1) "image" = none) ∧
    ∃ c, regenerate_chapter oracleFail storyOne 1 (some rawChapterSeven) =
        some (RegenAns.chap c, setChapterAt storyOne [chapterOne] ((1 : Int) - 1).toNat c) ∧
      (getField c "image").isSome = true := by
  constructor
  · exact (C9_regen_error_vs_success oracleFail storyOne [chapterOne] 1 none rfl (by decide)
      (by decide) rfl rfl).1 rfl
  · exact (C9_regen_error_vs_success oracleFail storyOne [chapterOne] 1
      (some rawChapterSeven) rfl (by decide) (by decide) rfl rfl).2 rawChapterSeven
      (Json.obj [("chapter_number", Json.num 7), ("content", Json.str "hello"),
        ("image_prompt", Json.str "p")]) "hello" rfl rfl rfl rfl

/-- C7: in the image fan-out, when every per-chapter call succeeds each
chapter's image field is the URL derived from that chapter's own
image_prompt, and the URL construction is injective in the prompt (distinct
prompts give distinct URLs); when the join step itself fails, every chapter
receives the same generic fallback URL, which differs from the cover's
fallback URL. -/
theorem C7_image_fanout (story : Json) (chs : List Json) (joinFails : Bool)
    (h : getField story "chapters" = some (Json.arr chs))
    (hobj : chs.all isObjJ = true)
    (hprompts : chs.all (fun c => (getField c "image_prompt").isSome) = true)
    (ht : (getField story "title").isSome = true) :
    (joinFails = false →
      generate_all_images_concurrent false story =
        some (setField story "chapters" (Json.arr (chs.map chapterWithImage)),
          generate_image (coverPrompt ((getField story "title").getD Json.null)) 400 550) ∧
      ∀ c ∈ chs, getField (chapterWithImage c) "image" =
        some (Json.str (generate_image_json ((getField c "image_prompt").getD Json.null)))) ∧
    (∀ p q : String, generate_image p 800 600 = generate_image q 800 600 → p = q) ∧
    (joinFails = true →
      generate_all_images_concurrent true story =
        some (setField story "chapters" (Json.arr (chs.map chapterWithFallback)),
          coverFallbackUrl) ∧
      (∀ c ∈ chs, getField (chapterWithFallback c) "image" =
        some (Json.str scenicFallbackUrl)) ∧
      scenicFallbackUrl ≠ coverFallbackUrl) := by
  refine ⟨?_, ?_, ?_⟩
  · intro _
    constructor
    · simp only [generate_all_images_concurrent, h]
      rw [if_pos hobj]
      simp [ht, hprompts]
    · intro c hc
      have hco : isObjJ c = true := List.all_eq_true.mp hobj c hc
      unfold chapterWithImage
      exact getField_setField_self _ _ _ hco
  · intro p q
    exact generate_image_prompt_inj
  · intro _
    refine ⟨?_, ?_, by decide⟩
    · simp only [generate_all_images_concurrent, h]
      rw [if_pos hobj]
      simp
    · intro c hc
      have hco : isObjJ c = true := List.all_eq_true.mp hobj c hc
      unfold chapterWithFallback
      exact getField_setField_self _ _ _ hco

/-- C7 witness: on a two-chapter story with distinct prompts the successful
fan-out fills each chapter from its own prompt, and the two chapter URLs are
distinct. -/
theorem C7_witness :
    generate_all_images_concurrent false storyTwo =
      some (setField storyTwo "chapters"
        (Json.arr [chapterWithImage chapterCastle, chapterWithImage chapterDragon]),
        generate_image (coverPrompt ((getField storyTwo "title").getD Json.null)) 400 550) ∧
    generate_image "castle at dawn" 800 600 ≠ generate_image "dragon lair" 800 600 := by
  constructor
  · exact ((C7_image_fanout storyTwo [chapterCastle, chapterDragon] false rfl rfl rfl rfl).1
      rfl).1
  · intro hcontra
    have heq := (C7_image_fanout storyTwo [chapterCastle, chapterDragon] false rfl rfl rfl
      rfl).2.1 "castle at dawn" "dragon lair" hcontra
    exact absurd heq (by decide)

/-- C4 (amended): candidate selection keeps exactly the tokenized words of at
least 6 letters that are not in the stoplist, not all-uppercase and contain
no digits, deduplicated case-insensitively preserving first-seen casing,
ranked by length descending with ties broken by lexicographically DESCENDING
lowercased word (Python's `reverse=True` flips both components of the key),
truncated to at most 5 candidates: the selection is a strictly
descending-by-key, pairwise case-insensitively distinct sublist of the
candidates, and every excluded candidate ranks strictly below every selected
one. -/
theorem C4_candidate_selection (text : String) :
    (selected_words text).length ≤ 5 ∧
    List.Pairwise (fun a b => keyLtB (pyKey b) (pyKey a) = true) (selected_words text) ∧
    List.Pairwise (fun a b => pyLower a ≠ pyLower b) (selected_words text) ∧
    (∀ w ∈ selected_words text, w ∈ findallWords text ∧
      common_words.contains (pyLower w) = false ∧ pyIsUpper w = false ∧ 6 ≤ w.length) ∧
    (∀ w ∈ unique_words text, w ∉ selected_words text →
      ∀ v ∈ selected_words text, keyLtB (pyKey w) (pyKey v) = true) ∧
    (∀ w ∈ filtered_words text, ∃ v ∈ unique_words text, pyLower v = pyLower w) := by
  have hsorted : List.Pairwise rankGE (pySortedRev (unique_words text)) :=
    List.sorted_insertionSort rankGE (unique_words text)
  have hperm : (pySortedRev (unique_words text)).Perm (unique_words text) :=
    List.perm_insertionSort rankGE (unique_words text)
  have hdedup : List.Pairwise (fun a b => pyLower a ≠ pyLower b) (unique_words text) :=
    dedupGo_pairwise [] (filtered_words text)
  have hdistinct : List.Pairwise (fun a b => pyLower a ≠ pyLower b)
      (pySortedRev (unique_words text)) :=
    (List.Perm.pairwise_iff (fun hxy => Ne.symm hxy) hperm).mpr hdedup
  have hstrict : List.Pairwise (fun a b => keyLtB (pyKey b) (pyKey a) = true)
      (pySortedRev (unique_words text)) := by
    refine (hsorted.and hdistinct).imp ?_
    intro a b hab
    cases hba : keyLtB (pyKey b) (pyKey a) with
    | true => rfl
    | false => exact absurd (congrArg Prod.snd (keyLtB_conn hab.1 hba)) hab.2
  have hsub : (selected_words text).Sublist (pySortedRev (unique_words text)) := by
    unfold selected_words
    exact List.take_sublist 5 _
  have hmem_unique : ∀ w ∈ selected_words text, w ∈ unique_words text := by
    intro w hw
    exact (hperm.mem_iff).mp (hsub.subset hw)
  refine ⟨?_, ?_, ?_, ?_, ?_, ?_⟩
  · unfold selected_words
    rw [List.length_take]
    exact min_le_left _ _
  · exact List.Pairwise.sublist hsub hstrict
  · exact List.Pairwise.sublist hsub hdistinct
  · intro w hw
    exact mem_filtered_words (dedupGo_subset (hmem_unique w hw))
  · intro w hw hnot v hv
    have hw2 : w ∈ pySortedRev (unique_words text) := (hperm.mem_iff).mpr hw
    rw [← List.take_append_drop 5 (pySortedRev (unique_words text))] at hw2 hstrict
    rcases List.mem_append.mp hw2 with hwt | hwd
    · exact absurd hwt hnot
    · exact (List.pairwise_append.mp hstrict).2.2 v hv w hwd
  · intro w hw
    exact dedupGo_complete [] hw (by simp)

/-- C4 witness: on "apples banana" both words are kept, and the selected word
"banana" is certified to be a filtered token of the text. -/
theorem C4_witness :
    "banana" ∈ findallWords "apples banana" ∧
    common_words.contains (pyLower "banana") = false ∧
    pyIsUpper "banana" = false ∧ 6 ≤ "banana".length :=
  (C4_candidate_selection "apples banana").2.2.2.1 "banana" (by decide)

/-- C4 counterexample: equal-length candidates are ranked by DESCENDING
lowercased word, not ascending: on "apples banana" the code selects
["banana", "apples"] while the claim's ascending tie-break predicts
["apples", "banana"]. -/
theorem C4_counterexample :
    selected_words "apples banana" = ["banana", "apples"] ∧
    selected_words_spec "apples banana" = ["apples", "banana"] ∧
    selected_words "apples banana" ≠ selected_words_spec "apples banana" :=
  ⟨rfl, rfl, by decide⟩

/-- Anchor: the specification's end-to-end scenario of a prose-wrapped fenced
response — the ladder extracts and parses the fenced record, ignoring the
surrounding prose. -/
theorem parseLadder_prose_fence_anchor :
    parseLadder
        "Sure! Here is your story: ```json \x7b\"title\": \"X\"\x7d``` Hope you like it!" =
      ParseOutcome.parsed (Json.obj [("title", Json.str "X")]) := rfl

/-- Anchor: the JSON parser on a nested document, agreeing with `json.loads`
(object order kept, later duplicate keys winning in place). -/
theorem json_loads_anchor :
    json_loads " \x7b\"a\": [1, true, null, \"x\"], \"b\": \x7b\"c\": -2\x7d, \"a\": 3\x7d " =
      some (Json.obj [("a", Json.num 3), ("b", Json.obj [("c", Json.num (-2))])]) := rfl

/-- Anchor: the embedded sort agrees with CPython's
`sorted(key=lambda x: (len(x), x.lower()), reverse=True)` on a mixed list —
longer words first, equal lengths by descending lowercased word. -/
theorem pySortedRev_anchor :
    pySortedRev ["castle", "apples", "zebra", "banana", "anchor"] =
      ["castle", "banana", "apples", "anchor", "zebra"] := rfl

/-- Anchor: the tokenizer agrees with `re.findall(r'\b[A-Za-z]{5,}\b', ...)`
on word boundaries — letter runs glued to underscores or digits do not match,
runs bounded by punctuation or spaces do. -/
theorem findallWords_anchor :
    findallWords "hello_world abcdef1 WORLD35x great-stuff" = ["great", "stuff"] := rfl
